import Mathlib

/-!
# Verification of the Realtime_Copilot streaming orchestration layer

Shallow embedding of `src/main.py` (class `RealtimeTranscriber`): the
conversation log, transcript buffer, toggle flag, the transcript receiver
step, the conversation processor, the audio sender and the channel
supervisor loop (`send_receive`), together with theorems settling the
spec claims about them.

Conventions of the embedding:
* Python's mutable `self` state becomes the `Session` structure, passed and
  returned explicitly.
* The OpenAI completion stream is an oracle: the list of text increments it
  yields, plus a flag saying whether it raises after yielding them.
* A Python exception escaping a function is an explicit error value in the
  result; a loop that would die on the exception stops at it.
-/

namespace RealtimeCopilot

/-- One entry of the conversation log: a `{"role": ..., "content": ...}` dict. -/
structure Msg where
  role : String
  content : String
deriving DecidableEq, Repr

/-- The mutable state of `RealtimeTranscriber` that the claims are about:
`self.transcribing`, `self.stop_transcription`, `self.user_message`,
`self.assistant_message` and `self.messages`. -/
structure Session where
  transcribing : Bool
  stop_transcription : Bool
  user_message : String
  assistant_message : String
  messages : List Msg
deriving DecidableEq, Repr

/-- `append_message` from `main.py`: appends `{"role": role, "content": message}`
to `self.messages`. -/
def append_message (s : Session) (role message : String) : Session :=
  { s with messages := s.messages ++ [⟨role, message⟩] }

/-- The hardcoded style note appended in `__init__` (second log entry). -/
def conciseNote : String :=
  "Note: Remember to always be concise, brief, straight-to-the-point..."

/-- `__init__` from `main.py`, restricted to the state the claims mention:
messages start as `[system entry]`, then `append_message("user", conciseNote)`;
`transcribing` and `stop_transcription` start `False`, both string
accumulators start empty. -/
def initSession (system_prompt : String) : Session :=
  append_message
    { transcribing := false
      stop_transcription := false
      user_message := ""
      assistant_message := ""
      messages := [⟨"system", system_prompt⟩] }
    "user" conciseNote

/-- `toggle_transcription` from `main.py`: flips `self.transcribing`
(the printed status line carries no state). -/
def toggle_transcription (s : Session) : Session :=
  { s with transcribing := !s.transcribing }

/-- Oracle for one OpenAI completion stream: the increments
(`response.choices[0].delta.content`) it yields in order, and whether the
request or the iteration raises after yielding them (`raises = true` means
the `for` loop in `process_transcripts` is aborted by an exception). -/
structure CompletionStream where
  chunks : List String
  raises : Bool
deriving DecidableEq, Repr

/-- Errors that can escape the receiver step, mirroring the Python
exceptions: `json.loads` raising on non-JSON input, `transcript['message_type']`
raising `KeyError`, and an error from the completion service. -/
inductive RErr
  | jsonDecodeError
  | keyError
  | completionError
deriving DecidableEq, Repr

/-- The accumulation loop of `process_transcripts`:
`for content in stream: if content: assistant_message += content`.
A Python `str` is truthy iff non-empty, so empty increments are skipped
(they contribute nothing to the concatenation either way). -/
def accumChunks : String → List String → String
  | acc, [] => acc
  | acc, c :: cs => if c = "" then accumChunks acc cs else accumChunks (acc ++ c) cs

/-- `process_transcripts` from `main.py`. Consumes the stream oracle:
accumulates non-empty increments into `assistant_message` (printing each,
modelled by the emitted list in the middle component), then — only if the
stream did not raise — appends one `assistant` entry holding the accumulated
text and resets the accumulator. If the stream raises, the exception
propagates (`some .completionError`) with the accumulator left as-is and no
entry appended. The `transcript` argument is accepted but, as in the source,
never used for the request (the request context is `self.messages`). -/
def process_transcripts (s : Session) (transcript : String) (st : CompletionStream) :
    Session × List String × Option RErr :=
  let _ := transcript
  let s1 := { s with assistant_message := accumChunks s.assistant_message st.chunks }
  let emitted := st.chunks.filter (fun c => c != "")
  if st.raises then
    (s1, emitted, some .completionError)
  else
    let s2 := append_message s1 "assistant" s1.assistant_message
    ({ s2 with assistant_message := "" }, emitted, none)

/-- The parsed shape of one inbound JSON event, as far as
`receive_transcript` inspects it: the optional `text` and `message_type`
fields (`none` = key absent). -/
structure TranscriptEvent where
  text : Option String
  message_type : Option String
deriving DecidableEq, Repr

/-- One inbound websocket message: either not parseable as JSON
(`json.loads` raises) or a JSON object with the two inspected fields. -/
inductive Inbound
  | notJson
  | obj (ev : TranscriptEvent)
deriving DecidableEq, Repr

/-- One iteration of the `receive_transcript` loop on one inbound message.
Returns the new state, the list of texts passed to `process_transcripts`
(empty or a singleton — it records that and with what argument the
conversation processor was invoked), and the exception escaping the
iteration, if any. Faithful to the source order:
`json.loads`; `if 'text' in transcript and transcript['message_type'] == 'FinalTranscript'`
(short-circuit: a missing `text` skips, a present `text` with missing
`message_type` raises `KeyError`); accumulate `text` into `user_message`;
if not transcribing: `append_message("user", user_message)`, then
`process_transcripts(user_message)`, then reset `user_message` — the reset
is skipped when `process_transcripts` raises. -/
def receive_step (s : Session) (inb : Inbound) (st : CompletionStream) :
    Session × List String × Option RErr :=
  match inb with
  | .notJson => (s, [], some .jsonDecodeError)
  | .obj ev =>
    match ev.text with
    | none => (s, [], none)
    | some t =>
      match ev.message_type with
      | none => (s, [], some .keyError)
      | some mt =>
        if mt = "FinalTranscript" then
          let s1 := { s with user_message := s.user_message ++ t }
          if s1.transcribing then
            (s1, [], none)
          else
            let r := process_transcripts (append_message s1 "user" s1.user_message)
              s1.user_message st
            match r.2.2 with
            | some e => (r.1, [s1.user_message], some e)
            | none => ({ r.1 with user_message := "" }, [s1.user_message], none)
        else
          (s, [], none)

/-- The `receive_transcript` loop over a finite prefix of inbound messages,
each paired with the completion-stream oracle used if that message triggers
processing. The loop dies at the first escaping exception: later messages
are not processed. Accumulates the processor-invocation texts in order. -/
def receive_loop (s : Session) :
    List (Inbound × CompletionStream) → Session × List String × Option RErr
  | [] => (s, [], none)
  | (inb, st) :: rest =>
    let r := receive_step s inb st
    match r.2.2 with
    | some e => (r.1, r.2.1, some e)
    | none =>
      let r2 := receive_loop r.1 rest
      (r2.1, r.2.1 ++ r2.2.1, r2.2.2)

/-! ## Audio sender -/

/-- The base64 alphabet, as used by Python's `base64.b64encode`. -/
def b64Alphabet : String :=
  "ABCDEFGHIJKLMNOPQRSTUVWXYZabcdefghijklmnopqrstuvwxyz0123456789+/"

/-- The base64 digit for a 6-bit value. -/
def b64Char (n : Nat) : Char :=
  b64Alphabet.toList.getD n 'A'

/-- Standard base64 of a byte list (each byte `< 256`), matching
`base64.b64encode(data).decode("utf-8")`: groups of three bytes become four
digits; a trailing group of one or two bytes is padded with `=`. -/
def b64encode : List Nat → String
  | [] => ""
  | [b1] =>
    String.mk [b64Char (b1 / 4 % 64), b64Char (b1 % 4 * 16), '=', '=']
  | [b1, b2] =>
    String.mk [b64Char (b1 / 4 % 64), b64Char (b1 % 4 * 16 + b2 / 16 % 16),
      b64Char (b2 % 16 * 4), '=']
  | b1 :: b2 :: b3 :: rest =>
    String.mk [b64Char (b1 / 4 % 64), b64Char (b1 % 4 * 16 + b2 / 16 % 16),
      b64Char (b2 % 16 * 4 + b3 / 64 % 4), b64Char (b3 % 64)] ++ b64encode rest

/-- The rendered outbound message `json.dumps({"audio_data": encoded_data})`:
a JSON object with the single key `audio_data` (base64 text needs no JSON
escaping, so this is the exact `dumps` output up to whitespace). -/
def jsonDumpsAudioData (enc : String) : String :=
  "\x7b\"audio_data\": \"" ++ enc ++ "\"\x7d"

/-- One cycle of the `send_audio` loop: the toggle value read at the top of
the cycle, and the frame `self.stream.read(FRAMES_PER_BUFFER, ...)` would
return if read this cycle (the read happens only when the toggle is active). -/
structure AudioCycle where
  transcribing : Bool
  frame : List Nat
deriving DecidableEq, Repr

/-- The body of one `send_audio` cycle: if `self.transcribing`, read exactly
one frame, base64-encode it and send exactly one message; otherwise send
nothing (the sleep carries no state). Returns the messages sent this cycle. -/
def send_audio_cycle (c : AudioCycle) : List String :=
  if c.transcribing then [jsonDumpsAudioData (b64encode c.frame)] else []

/-- The `send_audio` loop over a finite list of cycles: the sequence of
messages transmitted. -/
def send_audio : List AudioCycle → List String
  | [] => []
  | c :: rest => send_audio_cycle c ++ send_audio rest

/-! ## Channel supervisor (`send_receive`) and process exit -/

/-- How one connection attempt of the `send_receive` loop ends, mirroring
the `try`/`except` structure in the source:
* `closedErr msg` — `websockets.exceptions.ConnectionClosedError` with
  `str(e) = msg`;
* `cancelled` — `asyncio.CancelledError`;
* `otherExc msg` — any other exception (connect failure, handshake error,
  or an exception escaping the sender/receiver tasks through
  `asyncio.gather`);
* `tasksReturned` — both tasks returned because `stop_transcription` was
  set, so the loop condition fails on re-check. -/
inductive ConnOutcome
  | closedErr (msg : String)
  | cancelled
  | otherExc (msg : String)
  | tasksReturned
deriving DecidableEq, Repr

/-- How `send_receive` itself ends: a normal return, or an exception
propagating out of it. -/
inductive SRResult
  | returned
  | raised (msg : String)
deriving DecidableEq, Repr

/-- The idle-disconnect marker tested by
`"Session idle for too long" not in str(e)`. -/
def idleMarker : String := "Session idle for too long"

/-- Python's `needle in hay` substring test. -/
def containsSub (needle hay : String) : Bool :=
  hay.toList.tails.any (fun t => needle.toList.isPrefixOf t)

/-- The `send_receive` supervisor loop over the outcomes of successive
connection attempts. Per the source: an idle-marked `ConnectionClosedError`
is absorbed and the loop re-attempts the connection; any other
`ConnectionClosedError` is re-raised (escaping the loop); `CancelledError`
and every other exception `break` out of the loop, returning normally
(the generic handler prints the error first); when the tasks return
because of the stop flag the loop condition ends the loop. An empty list
means the stop flag was already set at loop entry. -/
def send_receive : List ConnOutcome → SRResult
  | [] => .returned
  | .closedErr msg :: rest =>
    if containsSub idleMarker msg then send_receive rest else .raised msg
  | .cancelled :: _ => .returned
  | .otherExc _ :: _ => .returned
  | .tasksReturned :: _ => .returned

/-- The process exit code implied by how `send_receive` ends: `run()` calls
`asyncio.run(self.send_receive())` with no handler, and the `__main__` block
has none either, so an exception escaping `send_receive` kills the
interpreter with a non-zero status, while a normal return leads to a normal
(zero) exit. -/
def exitCode : SRResult → Nat
  | .returned => 0
  | .raised _ => 1

/-! ## Reachable session states -/

/-- One state transition of the session, as the source can perform it:
a spacebar toggle, one iteration of the receiver loop on any inbound
message with any completion-stream oracle (kept even when the iteration
raises — the state mutated so far remains), or the escape key setting the
stop flag. -/
inductive Step : Session → Session → Prop
  | toggle (s : Session) : Step s (toggle_transcription s)
  | recv (s : Session) (inb : Inbound) (st : CompletionStream) :
      Step s (receive_step s inb st).1
  | stop (s : Session) : Step s { s with stop_transcription := true }

/-- Reachability: zero or more `Step`s. -/
def Reaches (s s' : Session) : Prop :=
  Relation.ReflTransGen Step s s'

/-! ## Helper lemmas -/

/-- Concatenation of a list of strings in order (the reference notion the
spec phrases as "the concatenation of their `text` fields in arrival
order"). -/
def concatAll : List String → String
  | [] => ""
  | c :: cs => c ++ concatAll cs

lemma accumChunks_eq (cs : List String) (a : String) :
    accumChunks a cs = a ++ concatAll cs := by
  induction cs generalizing a with
  | nil => simp [accumChunks, concatAll]
  | cons c cs ih =>
    by_cases hc : c = ""
    · subst hc
      simp [accumChunks, concatAll, ih]
    · simp [accumChunks, concatAll, hc, ih, String.append_assoc]

lemma concatAll_filter_ne_empty (cs : List String) :
    concatAll (cs.filter (fun c => c != "")) = concatAll cs := by
  induction cs with
  | nil => rfl
  | cons c cs ih =>
    by_cases hc : c = ""
    · subst hc
      simpa [concatAll] using ih
    · simp [concatAll, hc, ih]

lemma process_transcripts_ok (s : Session) (t : String) (chunks : List String) :
    process_transcripts s t ⟨chunks, false⟩ =
      ({ s with
          assistant_message := ""
          messages := s.messages ++
            [⟨"assistant", accumChunks s.assistant_message chunks⟩] },
        chunks.filter (fun c => c != ""), none) := rfl

lemma process_transcripts_raises (s : Session) (t : String) (chunks : List String) :
    process_transcripts s t ⟨chunks, true⟩ =
      ({ s with assistant_message := accumChunks s.assistant_message chunks },
        chunks.filter (fun c => c != ""), some .completionError) := rfl

lemma receive_step_notJson (s : Session) (st : CompletionStream) :
    receive_step s .notJson st = (s, [], some .jsonDecodeError) := rfl

lemma receive_step_noText (s : Session) (mt : Option String) (st : CompletionStream) :
    receive_step s (.obj ⟨none, mt⟩) st = (s, [], none) := rfl

lemma receive_step_noType (s : Session) (t : String) (st : CompletionStream) :
    receive_step s (.obj ⟨some t, none⟩) st = (s, [], some .keyError) := rfl

lemma receive_step_nonFinal (s : Session) (t mt : String) (st : CompletionStream)
    (h : mt ≠ "FinalTranscript") :
    receive_step s (.obj ⟨some t, some mt⟩) st = (s, [], none) := by
  simp [receive_step, h]

lemma receive_step_final_active (s : Session) (t : String) (st : CompletionStream)
    (h : s.transcribing = true) :
    receive_step s (.obj ⟨some t, some "FinalTranscript"⟩) st =
      ({ s with user_message := s.user_message ++ t }, [], none) := by
  simp [receive_step, h]

lemma receive_step_final_paused_ok (s : Session) (t : String) (chunks : List String)
    (h : s.transcribing = false) :
    receive_step s (.obj ⟨some t, some "FinalTranscript"⟩) ⟨chunks, false⟩ =
      ({ s with
          user_message := ""
          assistant_message := ""
          messages := s.messages ++
            [⟨"user", s.user_message ++ t⟩,
             ⟨"assistant", accumChunks s.assistant_message chunks⟩] },
        [s.user_message ++ t], none) := by
  simp [receive_step, h, process_transcripts, append_message]

lemma receive_step_final_paused_raises (s : Session) (t : String) (chunks : List String)
    (h : s.transcribing = false) :
    receive_step s (.obj ⟨some t, some "FinalTranscript"⟩) ⟨chunks, true⟩ =
      ({ s with
          user_message := s.user_message ++ t
          assistant_message := accumChunks s.assistant_message chunks
          messages := s.messages ++ [⟨"user", s.user_message ++ t⟩] },
        [s.user_message ++ t], some .completionError) := by
  simp [receive_step, h, process_transcripts, append_message]

lemma receive_step_messages (s : Session) (inb : Inbound) (st : CompletionStream) :
    ∃ tl, (receive_step s inb st).1.messages = s.messages ++ tl ∧
      ∀ m ∈ tl, m.role = "user" ∨ m.role = "assistant" := by
  obtain ⟨chunks, raises⟩ := st
  cases inb with
  | notJson => exact ⟨[], by simp [receive_step_notJson]⟩
  | obj ev =>
    obtain ⟨txt, mty⟩ := ev
    cases txt with
    | none => exact ⟨[], by simp [receive_step_noText]⟩
    | some t =>
      cases mty with
      | none => exact ⟨[], by simp [receive_step_noType]⟩
      | some m =>
        by_cases hm : m = "FinalTranscript"
        · subst hm
          cases ht : s.transcribing with
          | true => exact ⟨[], by simp [receive_step_final_active s t _ ht]⟩
          | false =>
            cases raises with
            | false =>
              refine ⟨[⟨"user", s.user_message ++ t⟩,
                ⟨"assistant", accumChunks s.assistant_message chunks⟩], ?_, ?_⟩
              · simp [receive_step_final_paused_ok s t chunks ht]
              · intro mm hmm
                simp only [List.mem_cons, List.mem_singleton] at hmm
                rcases hmm with h | h | h
                · left; rw [h]
                · right; rw [h]
                · cases h
            | true =>
              refine ⟨[⟨"user", s.user_message ++ t⟩], ?_, ?_⟩
              · simp [receive_step_final_paused_raises s t chunks ht]
              · intro mm hmm
                simp only [List.mem_singleton] at hmm
                left; rw [hmm]
        · exact ⟨[], by simp [receive_step_nonFinal s t m _ hm]⟩

lemma step_messages {s s' : Session} (h : Step s s') :
    ∃ tl, s'.messages = s.messages ++ tl ∧
      ∀ m ∈ tl, m.role = "user" ∨ m.role = "assistant" := by
  cases h with
  | toggle => exact ⟨[], by simp [toggle_transcription]⟩
  | recv inb st => exact receive_step_messages s inb st
  | stop => exact ⟨[], by simp⟩

lemma reaches_messages {s s' : Session} (h : Reaches s s') :
    ∃ tl, s'.messages = s.messages ++ tl ∧
      ∀ m ∈ tl, m.role = "user" ∨ m.role = "assistant" := by
  induction h with
  | refl => exact ⟨[], by simp⟩
  | tail _ hbc ih =>
    obtain ⟨tl1, h1, r1⟩ := ih
    obtain ⟨tl2, h2, r2⟩ := step_messages hbc
    refine ⟨tl1 ++ tl2, ?_, ?_⟩
    · rw [h2, h1, List.append_assoc]
    · intro m hm
      rcases List.mem_append.mp hm with h | h
      · exact r1 m h
      · exact r2 m h

lemma receive_loop_final_active (s : Session) (texts : List String)
    (st : CompletionStream) (h : s.transcribing = true) :
    receive_loop s (texts.map fun t => (Inbound.obj ⟨some t, some "FinalTranscript"⟩, st)) =
      ({ s with user_message := s.user_message ++ concatAll texts }, [], none) := by
  induction texts generalizing s with
  | nil => simp [receive_loop, concatAll]
  | cons t ts ih =>
    simp only [List.map_cons, receive_loop, receive_step_final_active s t st h]
    rw [ih { s with user_message := s.user_message ++ t } h]
    simp [concatAll, String.append_assoc]

/-! ## Claim theorems -/

/-- Claim C1: a final-type transcript event arriving while the toggle is
`Paused` with a non-empty transcript buffer makes the receiver append
exactly one `user` entry to the conversation log whose content is the
buffer contents (the buffer having first accumulated the event's own
text), invoke the conversation processor synchronously with that text, and
then reset the buffer to the empty string; the toggle transition itself
touches neither the log nor the buffer, so completion is triggered by the
event arriving while paused, not by the toggle. -/
theorem final_event_while_paused_completes_utterance
    (s : Session) (t : String) (chunks : List String)
    (hp : s.transcribing = false) (hne : s.user_message ≠ "") :
    (receive_step s (.obj ⟨some t, some "FinalTranscript"⟩) ⟨chunks, false⟩).1.messages =
        s.messages ++ [⟨"user", s.user_message ++ t⟩,
          ⟨"assistant", accumChunks s.assistant_message chunks⟩] ∧
      ((receive_step s (.obj ⟨some t, some "FinalTranscript"⟩) ⟨chunks, false⟩).1.messages.filter
          (fun m => m.role == "user")) =
        s.messages.filter (fun m => m.role == "user") ++ [⟨"user", s.user_message ++ t⟩] ∧
      (receive_step s (.obj ⟨some t, some "FinalTranscript"⟩) ⟨chunks, false⟩).2.1 =
        [s.user_message ++ t] ∧
      (receive_step s (.obj ⟨some t, some "FinalTranscript"⟩) ⟨chunks, false⟩).1.user_message =
        "" ∧
      (toggle_transcription s).messages = s.messages ∧
      (toggle_transcription s).user_message = s.user_message := by
  rw [receive_step_final_paused_ok s t chunks hp]
  refine ⟨rfl, ?_, rfl, rfl, rfl, rfl⟩
  simp [List.filter_append, List.filter_cons]

/-- Witness for C1 at a concrete paused session with buffer `"Hello there."`. -/
theorem final_event_while_paused_completes_utterance_witness :
    ("Hello there." : String) ≠ "" ∧
      (receive_step ⟨false, false, "Hello there.", "", [⟨"system", "p"⟩]⟩
          (.obj ⟨some "!", some "FinalTranscript"⟩) ⟨["Hi", "", " back"], false⟩).1.messages =
        [⟨"system", "p"⟩, ⟨"user", "Hello there.!"⟩, ⟨"assistant", "Hi back"⟩] ∧
      (receive_step ⟨false, false, "Hello there.", "", [⟨"system", "p"⟩]⟩
          (.obj ⟨some "!", some "FinalTranscript"⟩) ⟨["Hi", "", " back"], false⟩).2.1 =
        ["Hello there.!"] ∧
      (receive_step ⟨false, false, "Hello there.", "", [⟨"system", "p"⟩]⟩
          (.obj ⟨some "!", some "FinalTranscript"⟩) ⟨["Hi", "", " back"], false⟩).1.user_message =
        "" := by
  have h := final_event_while_paused_completes_utterance
    ⟨false, false, "Hello there.", "", [⟨"system", "p"⟩]⟩ "!" ["Hi", "", " back"]
    rfl (by decide)
  exact ⟨by decide, h.1, h.2.2.1, h.2.2.2.1⟩

/-- Claim C2: over any sequence of final-type events received while the
toggle is `Active`, the transcript buffer ends as the concatenation of
their `text` fields in arrival order, and the conversation processor is
never invoked (the invocation trace is empty and no error occurs). -/
theorem final_events_while_active_accumulate (s : Session) (texts : List String)
    (st : CompletionStream) (ha : s.transcribing = true) (h0 : s.user_message = "") :
    receive_loop s (texts.map fun t => (Inbound.obj ⟨some t, some "FinalTranscript"⟩, st)) =
      ({ s with user_message := concatAll texts }, [], none) := by
  rw [receive_loop_final_active s texts st ha, h0]
  simp

/-- Witness for C2 at a concrete active session and three final events. -/
theorem final_events_while_active_accumulate_witness :
    receive_loop ⟨true, false, "", "", [⟨"system", "p"⟩]⟩
        (["Hello ", "there", "."].map fun t =>
          (Inbound.obj ⟨some t, some "FinalTranscript"⟩, (⟨["x"], false⟩ : CompletionStream))) =
      (⟨true, false, "Hello there.", "", [⟨"system", "p"⟩]⟩, [], none) :=
  final_events_while_active_accumulate ⟨true, false, "", "", [⟨"system", "p"⟩]⟩
    ["Hello ", "there", "."] ⟨["x"], false⟩ rfl rfl

/-- Claim C5: a completion stream consumed to exhaustion appends exactly
one `assistant` entry whose content is the concatenation of all yielded
increments in order, and resets the accumulator; empty increments are
excluded from the emitted output (the middle component) but contribute, as
empty strings, to the concatenation — which the second conjunct records:
the concatenation of the non-empty increments equals that of all of them. -/
theorem completion_stream_appends_one_assistant_entry
    (s : Session) (t : String) (chunks : List String) (h : s.assistant_message = "") :
    process_transcripts s t ⟨chunks, false⟩ =
      ({ s with
          assistant_message := ""
          messages := s.messages ++ [⟨"assistant", concatAll chunks⟩] },
        chunks.filter (fun c => c != ""), none) ∧
      concatAll (chunks.filter (fun c => c != "")) = concatAll chunks := by
  refine ⟨?_, concatAll_filter_ne_empty chunks⟩
  rw [process_transcripts_ok, accumChunks_eq, h]
  simp

/-- Witness for C5 at a concrete stream `["Hi", "", " back"]`. -/
theorem completion_stream_appends_one_assistant_entry_witness :
    process_transcripts ⟨false, false, "", "", [⟨"system", "p"⟩]⟩ "q"
        ⟨["Hi", "", " back"], false⟩ =
      (⟨false, false, "", "", [⟨"system", "p"⟩, ⟨"assistant", "Hi back"⟩]⟩,
        ["Hi", " back"], none) ∧
      concatAll (["Hi", "", " back"].filter (fun c => c != "")) =
        concatAll ["Hi", "", " back"] :=
  completion_stream_appends_one_assistant_entry
    ⟨false, false, "", "", [⟨"system", "p"⟩]⟩ "q" ["Hi", "", " back"] rfl

/-- Claim C7: when the completion request or stream consumption fails, the
error propagates out of the receiver step (it is not retried — the
processor was invoked exactly once), and the conversation log holds the
user turn already appended for this utterance but no `assistant` entry:
every `assistant` entry in the resulting log was already in the log
before. -/
theorem completion_failure_preserves_log
    (s : Session) (t : String) (chunks : List String) (hp : s.transcribing = false) :
    (receive_step s (.obj ⟨some t, some "FinalTranscript"⟩) ⟨chunks, true⟩).2.2 =
        some RErr.completionError ∧
      (receive_step s (.obj ⟨some t, some "FinalTranscript"⟩) ⟨chunks, true⟩).1.messages =
        s.messages ++ [⟨"user", s.user_message ++ t⟩] ∧
      (receive_step s (.obj ⟨some t, some "FinalTranscript"⟩) ⟨chunks, true⟩).2.1 =
        [s.user_message ++ t] ∧
      ∀ m ∈ (receive_step s (.obj ⟨some t, some "FinalTranscript"⟩) ⟨chunks, true⟩).1.messages,
        m.role = "assistant" → m ∈ s.messages := by
  rw [receive_step_final_paused_raises s t chunks hp]
  refine ⟨rfl, rfl, rfl, ?_⟩
  intro m hm hrole
  rcases List.mem_append.mp hm with hmem | hmem
  · exact hmem
  · simp only [List.mem_singleton] at hmem
    rw [hmem] at hrole
    simp at hrole

/-- Witness for C7 at a concrete paused session whose stream raises after
one increment. -/
theorem completion_failure_preserves_log_witness :
    (receive_step ⟨false, false, "Hi ", "", [⟨"system", "p"⟩]⟩
        (.obj ⟨some "all", some "FinalTranscript"⟩) ⟨["par"], true⟩).2.2 =
        some RErr.completionError ∧
      (receive_step ⟨false, false, "Hi ", "", [⟨"system", "p"⟩]⟩
          (.obj ⟨some "all", some "FinalTranscript"⟩) ⟨["par"], true⟩).1.messages =
        [⟨"system", "p"⟩, ⟨"user", "Hi all"⟩] ∧
      (receive_step ⟨false, false, "Hi ", "", [⟨"system", "p"⟩]⟩
          (.obj ⟨some "all", some "FinalTranscript"⟩) ⟨["par"], true⟩).2.1 =
        ["Hi all"] := by
  have h := completion_failure_preserves_log
    ⟨false, false, "Hi ", "", [⟨"system", "p"⟩]⟩ "all" ["par"] rfl
  exact ⟨h.1, h.2.1, h.2.2.1⟩

/-- Claim C10: a final-type event with empty `text` arriving while the
toggle is `Paused` and the buffer is empty still triggers the handoff:
a `user` entry with empty content is appended, the conversation processor
is invoked with the empty string, and the step finishes with an empty
buffer — the handoff is not conditioned on the buffer being non-empty. -/
theorem empty_final_event_while_paused_still_hands_off
    (s : Session) (chunks : List String)
    (hp : s.transcribing = false) (hbuf : s.user_message = "") :
    receive_step s (.obj ⟨some "", some "FinalTranscript"⟩) ⟨chunks, false⟩ =
      ({ s with
          user_message := ""
          assistant_message := ""
          messages := s.messages ++ [⟨"user", ""⟩,
            ⟨"assistant", accumChunks s.assistant_message chunks⟩] },
        [""], none) := by
  rw [receive_step_final_paused_ok s "" chunks hp, hbuf]
  simp

/-- Witness for C10 at the freshly initialized session (paused, empty
buffer). -/
theorem empty_final_event_while_paused_still_hands_off_witness :
    receive_step (initSession "p") (.obj ⟨some "", some "FinalTranscript"⟩)
        ⟨["ok"], false⟩ =
      ({ initSession "p" with
          user_message := ""
          assistant_message := ""
          messages := (initSession "p").messages ++ [⟨"user", ""⟩, ⟨"assistant", "ok"⟩] },
        [""], none) :=
  empty_final_event_while_paused_still_hands_off (initSession "p") ["ok"] rfl rfl

/-- Counterexample to claim C3 as stated: a connection error that is not a
`ConnectionClosedError` — here an exception raised while opening the
handshake — hits the generic `except Exception` arm, which prints and
`break`s: `send_receive` returns normally and the process exits with
status `0`, not the claimed non-zero status. -/
theorem other_connection_error_exits_zero_cex :
    send_receive [ConnOutcome.otherExc "TimeoutError during opening handshake"] =
        SRResult.returned ∧
      exitCode (send_receive [ConnOutcome.otherExc "TimeoutError during opening handshake"]) =
        0 := by
  exact ⟨rfl, rfl⟩

/-- Claim C3 (amended): an idle-marked `ConnectionClosedError` is absorbed
and the supervisor loop re-attempts the connection; a `ConnectionClosedError`
without the idle marker is re-raised, ending the loop with no further
reconnect attempt and a non-zero process exit; any other exception
(including other connection errors) and cancellation end the loop with no
further reconnect attempt, but `send_receive` returns normally, so the
process exits with status zero. -/
theorem send_receive_error_routes (msg : String) (rest : List ConnOutcome) :
    (containsSub idleMarker msg = true →
      send_receive (ConnOutcome.closedErr msg :: rest) = send_receive rest) ∧
      (containsSub idleMarker msg = false →
        send_receive (ConnOutcome.closedErr msg :: rest) = SRResult.raised msg ∧
          exitCode (SRResult.raised msg) ≠ 0) ∧
      send_receive (ConnOutcome.otherExc msg :: rest) = SRResult.returned ∧
      send_receive (ConnOutcome.cancelled :: rest) = SRResult.returned ∧
      exitCode SRResult.returned = 0 := by
  refine ⟨fun h => ?_, fun h => ⟨?_, by simp [exitCode]⟩, rfl, rfl, rfl⟩
  · simp [send_receive, h]
  · simp [send_receive, h]

/-- Witness for the amended C3: the idle-marked closure reconnects (and the
next attempt may end the loop), a plain closure is re-raised with non-zero
exit. -/
theorem send_receive_error_routes_witness :
    send_receive [ConnOutcome.closedErr "Session idle for too long",
        ConnOutcome.tasksReturned] = SRResult.returned ∧
      send_receive [ConnOutcome.closedErr "connection refused"] =
        SRResult.raised "connection refused" ∧
      exitCode (SRResult.raised "connection refused") ≠ 0 := by
  have h1 := (send_receive_error_routes "Session idle for too long"
    [ConnOutcome.tasksReturned]).1 (by decide)
  have h2 := (send_receive_error_routes "connection refused" []).2.1 (by decide)
  exact ⟨h1.trans rfl, h2.1, h2.2⟩

/-- Counterexample to claim C4 as stated: an inbound event that is not
parseable as JSON makes `json.loads` raise, killing the receiver loop —
the following well-formed final event is never processed (the resulting
state is the untouched initial one and the processor was never invoked),
so malformed events do terminate the receiver loop, contrary to the
claim. -/
theorem malformed_event_kills_receive_loop_cex :
    receive_loop (initSession "p")
        [(Inbound.notJson, ⟨[], false⟩),
          (Inbound.obj ⟨some "hi", some "FinalTranscript"⟩, ⟨["reply"], false⟩)] =
      (initSession "p", [], some RErr.jsonDecodeError) := by
  decide

/-- Claim C4 (amended): an inbound event lacking the `text` field, or whose
`message_type` is present but not `FinalTranscript`, is ignored — no
mutation of buffer or log, no error, and the receiver loop continues with
the remaining events. An event that is not parseable as JSON, or that has
`text` but lacks `message_type`, also mutates nothing, but raises
(`json.loads` error, resp. `KeyError`), and that exception terminates the
receiver loop: the remaining events are not processed. -/
theorem malformed_event_handling (s : Session) (st : CompletionStream) (t mt : String)
    (rest : List (Inbound × CompletionStream)) :
    receive_step s (Inbound.obj ⟨none, some mt⟩) st = (s, [], none) ∧
      receive_step s (Inbound.obj ⟨none, none⟩) st = (s, [], none) ∧
      (mt ≠ "FinalTranscript" →
        receive_step s (Inbound.obj ⟨some t, some mt⟩) st = (s, [], none)) ∧
      receive_loop s ((Inbound.obj ⟨none, none⟩, st) :: rest) = receive_loop s rest ∧
      receive_step s Inbound.notJson st = (s, [], some RErr.jsonDecodeError) ∧
      receive_step s (Inbound.obj ⟨some t, none⟩) st = (s, [], some RErr.keyError) ∧
      receive_loop s ((Inbound.notJson, st) :: rest) =
        (s, [], some RErr.jsonDecodeError) := by
  refine ⟨rfl, rfl, fun h => receive_step_nonFinal s t mt st h, ?_, rfl, rfl, rfl⟩
  show (let r2 := receive_loop s rest; (r2.1, [] ++ r2.2.1, r2.2.2)) = receive_loop s rest
  simp

/-- Witness for the amended C4 at concrete inputs: a partial-transcript
event is ignored, a non-JSON event raises the decode error. -/
theorem malformed_event_handling_witness :
    receive_step (initSession "p") (Inbound.obj ⟨some "x", some "PartialTranscript"⟩)
        ⟨[], false⟩ = (initSession "p", [], none) ∧
      receive_step (initSession "p") Inbound.notJson ⟨[], false⟩ =
        (initSession "p", [], some RErr.jsonDecodeError) := by
  have h := malformed_event_handling (initSession "p") ⟨[], false⟩ "x" "PartialTranscript" []
  exact ⟨h.2.2.1 (by decide), h.2.2.2.2.1⟩

/-- Claim C6: in every reachable session state, entry 0 of the conversation
log is the `system` entry set at creation; every entry has role `system`,
`user` or `assistant`; and every further step of the system only appends to
the log (the current log is a prefix of any successor's log), so entries
are never mutated or removed. -/
theorem conversation_log_invariant (sp : String) (s : Session)
    (h : Reaches (initSession sp) s) :
    s.messages.head? = some ⟨"system", sp⟩ ∧
      (∀ m ∈ s.messages, m.role = "system" ∨ m.role = "user" ∨ m.role = "assistant") ∧
      ∀ s', Step s s' → s.messages <+: s'.messages := by
  obtain ⟨tl, htl, hroles⟩ := reaches_messages h
  refine ⟨?_, ?_, ?_⟩
  · rw [htl]; rfl
  · intro m hm
    rw [htl] at hm
    rcases List.mem_append.mp hm with hmem | hmem
    · rcases List.mem_cons.mp hmem with hh | hh
      · left; rw [hh]
      · rcases List.mem_cons.mp hh with hh2 | hh2
        · right; left; rw [hh2]
        · cases hh2
    · rcases hroles m hmem with hr | hr
      · right; left; exact hr
      · right; right; exact hr
  · intro s' hstep
    obtain ⟨tl2, htl2, _⟩ := step_messages hstep
    exact ⟨tl2, htl2.symm⟩

/-- Witness for C6 after an actual three-step run: toggle on, receive a
final event, toggle off. -/
theorem conversation_log_invariant_witness :
    ((receive_step (toggle_transcription (initSession "base"))
          (Inbound.obj ⟨some "hey", some "FinalTranscript"⟩) ⟨[], false⟩).1).messages.head? =
        some ⟨"system", "base"⟩ ∧
      (∀ m ∈ ((receive_step (toggle_transcription (initSession "base"))
          (Inbound.obj ⟨some "hey", some "FinalTranscript"⟩) ⟨[], false⟩).1).messages,
        m.role = "system" ∨ m.role = "user" ∨ m.role = "assistant") ∧
      ∀ s', Step (receive_step (toggle_transcription (initSession "base"))
          (Inbound.obj ⟨some "hey", some "FinalTranscript"⟩) ⟨[], false⟩).1 s' →
        ((receive_step (toggle_transcription (initSession "base"))
          (Inbound.obj ⟨some "hey", some "FinalTranscript"⟩) ⟨[], false⟩).1).messages <+:
          s'.messages :=
  conversation_log_invariant "base" _
    (Relation.ReflTransGen.tail
      (Relation.ReflTransGen.single (Step.toggle (initSession "base")))
      (Step.recv (toggle_transcription (initSession "base"))
        (Inbound.obj ⟨some "hey", some "FinalTranscript"⟩) ⟨[], false⟩))

/-- Claim C8: in every sender cycle with the toggle `Active`, exactly one
frame is read and exactly one message is transmitted, namely the rendered
JSON object with the single key `audio_data` holding the base64 encoding
of the frame bytes; in every cycle with the toggle `Paused`, nothing is
transmitted. Over a whole run, the transmitted messages are exactly the
encodings of the frames of the active cycles, in order. -/
theorem send_audio_one_message_per_active_cycle (c : AudioCycle)
    (cycles : List AudioCycle) :
    (c.transcribing = true →
      send_audio_cycle c = [jsonDumpsAudioData (b64encode c.frame)]) ∧
      (c.transcribing = false → send_audio_cycle c = []) ∧
      send_audio cycles =
        (cycles.filter (fun c => c.transcribing)).map
          (fun c => jsonDumpsAudioData (b64encode c.frame)) := by
  refine ⟨fun h => by simp [send_audio_cycle, h],
    fun h => by simp [send_audio_cycle, h], ?_⟩
  induction cycles with
  | nil => rfl
  | cons c' cs ih =>
    by_cases h : c'.transcribing
    · simp [send_audio, send_audio_cycle, h, ih, List.filter_cons]
    · simp [send_audio, send_audio_cycle, h, ih, List.filter_cons]

/-- Witness for C8: the two-byte frame `[72, 105]` is sent exactly once
while active (base64 `"SGk="`), and a paused cycle sends nothing. -/
theorem send_audio_one_message_per_active_cycle_witness :
    send_audio_cycle ⟨true, [72, 105]⟩ = [jsonDumpsAudioData "SGk="] ∧
      send_audio_cycle ⟨false, [72, 105]⟩ = [] ∧
      send_audio [⟨true, [72, 105]⟩, ⟨false, [3, 4]⟩] = [jsonDumpsAudioData "SGk="] := by
  have h1 := (send_audio_one_message_per_active_cycle ⟨true, [72, 105]⟩
    [⟨true, [72, 105]⟩, ⟨false, [3, 4]⟩]).1 rfl
  have h2 := (send_audio_one_message_per_active_cycle ⟨false, [72, 105]⟩ []).2.1 rfl
  have h3 := (send_audio_one_message_per_active_cycle ⟨true, [72, 105]⟩
    [⟨true, [72, 105]⟩, ⟨false, [3, 4]⟩]).2.2
  exact ⟨h1, h2, h3⟩

/-- Claim C9: the constructor leaves the log with exactly two entries — the
system entry, then the hardcoded `user` style note starting
`"Note: Remember to always be concise"` — and in every reachable state the
first entry of role `user` in the log (the request context of every
completion call) is still that note. -/
theorem concise_note_is_first_user_message (sp : String) (s : Session)
    (h : Reaches (initSession sp) s) :
    (initSession sp).messages = [⟨"system", sp⟩, ⟨"user", conciseNote⟩] ∧
      "Note: Remember to always be concise".toList.isPrefixOf conciseNote.toList = true ∧
      (s.messages.filter (fun m => m.role == "user")).head? =
        some ⟨"user", conciseNote⟩ := by
  obtain ⟨tl, htl, _⟩ := reaches_messages h
  refine ⟨rfl, by decide, ?_⟩
  rw [htl]
  rfl

/-- Witness for C9 after the session handled one utterance end-to-end. -/
theorem concise_note_is_first_user_message_witness :
    (initSession "base").messages = [⟨"system", "base"⟩, ⟨"user", conciseNote⟩] ∧
      "Note: Remember to always be concise".toList.isPrefixOf conciseNote.toList = true ∧
      (((receive_step (initSession "base")
            (Inbound.obj ⟨some "hey", some "FinalTranscript"⟩) ⟨["yo"], false⟩).1).messages.filter
          (fun m => m.role == "user")).head? =
        some ⟨"user", conciseNote⟩ :=
  concise_note_is_first_user_message "base" _
    (Relation.ReflTransGen.single
      (Step.recv (initSession "base")
        (Inbound.obj ⟨some "hey", some "FinalTranscript"⟩) ⟨["yo"], false⟩))

end RealtimeCopilot
